import Mathlib

/-
Verification development for the CKAN time-series metadata scripts.

The development shallowly embeds the row/table data model and the
operations of extensions-workflow/timeseries_append.py (the Delta Engine
filter_duplicates, the Upsert Driver append_to_datastore, the datastore
creation payload builders and the paginated download loop) together with
the ordered result collection of sites-workflow/2CKANActionAPI.py
(SimpleCKANExtractor.process_csv).  pandas DataFrames are modelled as a
column-name list plus row-major value lists; pandas-specific behaviour
(dtype object detection, to_datetime with an exact format and coercion of
failures to NaT, strftime turning NaT into NaN, astype(str) turning NaN
into the string "nan") is translated value by value.
-/

namespace CkanTS

/-- A scalar cell value as it appears in a pandas column built from CSV or
JSON records: a string, an integer, a boolean, or a missing value
(NaN/NaT/None are conflated, as all of them stringify to "nan" under
astype(str) and are dropped by pd.notna). -/
inductive Value where
| vstr (s : String)
| vint (n : Int)
| vbool (b : Bool)
| vnan
deriving DecidableEq, Repr

/-- astype(str) on a single cell. -/
def strOfValue : Value → String
| .vstr s => s
| .vint n => toString n
| .vbool b => if b then "True" else "False"
| .vnan => "nan"

/-- A JSON record / Python dict: an association list from field name to
value (keys unique, insertion-ordered, as in Python dicts). -/
abbrev Rec := List (String × Value)

/-- A pandas DataFrame: ordered column names and row-major cell lists.
Well-formed frames have every row of the same length as `columns`. -/
structure DF where
columns : List String
rows : List (List Value)
deriving DecidableEq, Repr

/-- DataFrame.empty: true when either axis has length zero. -/
def DF.empty (df : DF) : Bool := df.rows.isEmpty || df.columns.isEmpty

/-- Well-formedness: each row has exactly one cell per column. -/
def WF (df : DF) : Prop := ∀ r ∈ df.rows, r.length = df.columns.length

/-- Position of a column name in a column list (List.index semantics). -/
def idxOf (cols : List String) (c : String) : Option Nat :=
match cols with
| [] => none
| x :: xs => if x = c then some 0 else (idxOf xs c).map (· + 1)

/-- Cell of a row at a named column; missing columns read as NaN. -/
def rowVal (cols : List String) (r : List Value) (c : String) : Value :=
match idxOf cols c with
| some i => r.getD i .vnan
| none => .vnan

/-- The values of the i-th column, top to bottom. -/
def colAt (df : DF) (i : Nat) : List Value := df.rows.map (fun r => r.getD i .vnan)

/-- The values of a named column (NaN when absent). -/
def colVals (df : DF) (c : String) : List Value :=
match idxOf df.columns c with
| some i => colAt df i
| none => []

/-- Splitting a character list on the dash character, str.split("-"). -/
def splitDash : List Char → List (List Char)
| [] => [[]]
| c :: cs =>
  let r := splitDash cs
  if c = '-' then [] :: r
  else
    match r with
    | [] => [[c]]
    | g :: gs => (c :: g) :: gs

/-- Decimal value of a digit list (only meaningful when all are digits). -/
def natOfDigits (cs : List Char) : Nat :=
cs.foldl (fun n c => n * 10 + (c.toNat - '0'.toNat)) 0

def isLeapYear (y : Nat) : Bool := (y % 4 = 0 && y % 100 ≠ 0) || y % 400 = 0

def daysInMonth (y m : Nat) : Nat :=
if m = 2 then (if isLeapYear y then 29 else 28)
else if m = 4 || m = 6 || m = 9 || m = 11 then 30
else 31

/-- Parse of a character list against the exact pattern %Y-%m-%d: a 4-digit
year, dash, 1-2 digit month, dash, 1-2 digit day, forming a valid calendar
date (pandas validates real dates and coerces the rest to NaT). -/
def parseYMDChars (cs : List Char) : Option (Nat × Nat × Nat) :=
match splitDash cs with
| [y, m, d] =>
  if y.length = 4 && y.all Char.isDigit
      && 1 ≤ m.length && m.length ≤ 2 && m.all Char.isDigit
      && 1 ≤ d.length && d.length ≤ 2 && d.all Char.isDigit then
    let yn := natOfDigits y
    let mn := natOfDigits m
    let dn := natOfDigits d
    if 1 ≤ mn && mn ≤ 12 && 1 ≤ dn && dn ≤ daysInMonth yn mn then
      some (yn, mn, dn)
    else none
  else none
| _ => none

def parseYMD (s : String) : Option (Nat × Nat × Nat) := parseYMDChars s.data

def pad2 (n : Nat) : String := if n < 10 then "0" ++ toString n else toString n

def pad4 (n : Nat) : String :=
if n < 10 then "000" ++ toString n
else if n < 100 then "00" ++ toString n
else if n < 1000 then "0" ++ toString n
else toString n

/-- strftime %Y-%m-%dT%H:%M:%S of a date parsed at midnight. -/
def fmtTs (y m d : Nat) : String :=
pad4 y ++ "-" ++ pad2 m ++ "-" ++ pad2 d ++ "T00:00:00"

/-- One cell through pd.to_datetime(format=%Y-%m-%d, errors=coerce)
followed by .dt.strftime(%Y-%m-%dT%H:%M:%S): strings matching the exact
format become the canonical timestamp string, everything else (other
string shapes, integers, booleans, NaN) becomes NaT and then NaN. -/
def normalizeValue : Value → Value
| .vstr s =>
  match parseYMD s with
  | some (y, m, d) => .vstr (fmtTs y m d)
  | none => .vnan
| _ => .vnan

/-- dtype == object for a column: pandas stores a column as object when it
holds any Python string (all-int columns are int64, all-bool are bool,
int/NaN mixtures are float64, none of which compare equal to object). -/
def isObjectCol (vals : List Value) : Bool :=
vals.any (fun v => match v with | .vstr _ => true | _ => false)

/-- Lines 152-160 of timeseries_append.py for one column of one frame:
normalize in place when the column exists and has object dtype. -/
def normalizeCol (df : DF) (c : String) : DF :=
match idxOf df.columns c with
| none => df
| some i =>
  if isObjectCol (colAt df i) then
    { df with rows := df.rows.map (fun r => r.set i (normalizeValue (r.getD i .vnan))) }
  else df

/-- The whole in-place normalization pass over the identity columns. -/
def normalizeDF (df : DF) (ucols : List String) : DF :=
ucols.foldl normalizeCol df

/-- df[unique_columns].astype(str).agg("-".join, axis=1) for one row. -/
def compositeKey (ucols : List String) (cols : List String) (r : List Value) : String :=
String.intercalate "-" (ucols.map (fun c => strOfValue (rowVal cols r c)))

/-- Column assignment df[c] = vals: overwrite in place when the column
exists, else append it on the right. -/
def setCol (df : DF) (c : String) (vals : List Value) : DF :=
match idxOf df.columns c with
| some i => { df with rows := df.rows.zipWith (fun r v => r.set i v) vals }
| none => { columns := df.columns ++ [c], rows := df.rows.zipWith (fun r v => r ++ [v]) vals }

/-- df.drop(c, axis=1): remove a named column (no-op when absent; the
source only drops columns it just created, where the column exists). -/
def dropCol (df : DF) (c : String) : DF :=
match idxOf df.columns c with
| some i => { columns := df.columns.eraseIdx i, rows := df.rows.map (fun r => r.eraseIdx i) }
| none => df

/-- df["_composite_key"] = df[unique_columns].astype(str).agg("-".join, axis=1). -/
def withKeys (df : DF) (ucols : List String) : DF :=
setCol df "_composite_key" (df.rows.map (fun r => Value.vstr (compositeKey ucols df.columns r)))

/-- The stored composite key of a row, read back from its key column. -/
def rowKeyStr (cols : List String) (r : List Value) : String :=
strOfValue (rowVal cols r "_composite_key")

/-- filter_duplicates(new_df, existing_df, unique_columns) of
timeseries_append.py, lines 133-184.  The Python function mutates its two
DataFrame arguments in place, so the embedding returns a quadruple:
(truly_new, duplicates, new_df after the call, existing_df after the
call).  Faithfully kept: the early return (new_df, new_df.copy()) when
existing_df is empty or an identity column is missing from either side;
the in-place normalization; the helper _composite_key column, dropped
afterwards only from non-empty frames (truly_new unconditionally). -/
def filter_main (new existing : DF) (ucols : List String) : DF × DF × DF × DF :=
let n1 := normalizeDF new ucols
let e1 := normalizeDF existing ucols
let n2 := withKeys n1 ucols
let e2 := withKeys e1 ucols
let existingKeys := e2.rows.map (fun r => rowKeyStr e2.columns r)
let truly0 : DF :=
  ⟨n2.columns, n2.rows.filter (fun r => !(existingKeys.contains (rowKeyStr n2.columns r)))⟩
let dups0 : DF :=
  ⟨n2.columns, n2.rows.filter (fun r => existingKeys.contains (rowKeyStr n2.columns r))⟩
let truly := dropCol truly0 "_composite_key"
let newAfter := if n2.empty then n2 else dropCol n2 "_composite_key"
let exAfter := if e2.empty then e2 else dropCol e2 "_composite_key"
let dups := if dups0.empty then dups0 else dropCol dups0 "_composite_key"
(truly, dups, newAfter, exAfter)

/-- The two early returns of filter_duplicates (empty existing frame, or
an identity column missing from either side) both hand back
(new_df, new_df.copy()) untouched; otherwise the main branch runs. -/
def filter_duplicates (new existing : DF) (ucols : List String) : DF × DF × DF × DF :=
if existing.empty then (new, new, new, existing)
else if ucols.any (fun c => !(new.columns.contains c) || !(existing.columns.contains c)) then
  (new, new, new, existing)
else filter_main new existing ucols

/-- The configured identity columns (UNIQUE_COLUMNS). -/
def UNIQUE_COLUMNS : List String := ["repository_name", "tstamp"]

/-- One response of the datastore_search endpoint to one page request:
a 200/success=true envelope carrying records and the reported total, a
success=false envelope, a non-200 HTTP status, or a raised transport
exception. -/
inductive PageResp where
| ok (records : List Rec) (total : Nat)
| badEnvelope
| badStatus
| raise
deriving DecidableEq, Repr

/-- The fixed download limit of download_existing_data. -/
def dlLimit : Nat := 100000

/-- The fixed page size (batch_size). -/
def dlBatch : Nat := 1000

/-- The while-loop of download_existing_data (lines 84-120), fuel-compiled:
at each iteration with offset < limit it issues one request; a transport
exception yields None (modelled none), a non-200 status or success=false
envelope breaks out with the records accumulated so far, an empty record
page breaks, and after extending the accumulator the loop breaks once the
reported total is covered.  Returns the result together with the list of
requested offsets.  The source's while-condition bounds the loop by 100
iterations (offset grows by 1000 up to 100000), so any fuel of at least
100 reproduces the loop from offset 0 exactly. -/
def dl_go (resp : Nat → PageResp) : Nat → Nat → List Rec → Option (List Rec) × List Nat
| 0, _, acc => (some acc, [])
| Nat.succ fuel, offset, acc =>
  if offset < dlLimit then
    match resp offset with
    | .raise => (none, [offset])
    | .badStatus => (some acc, [offset])
    | .badEnvelope => (some acc, [offset])
    | .ok records total =>
      if records.isEmpty then (some acc, [offset])
      else
        let acc2 := acc ++ records
        if total ≤ acc2.length then (some acc2, [offset])
        else
          let r := dl_go resp fuel (offset + dlBatch) acc2
          (r.1, offset :: r.2)
  else (some acc, [])

/-- download_existing_data against a given response behaviour. -/
def download_existing_data (resp : Nat → PageResp) : Option (List Rec) × List Nat :=
dl_go resp 100 0 []

/-- An honest datastore_search server over a stored table: every request
succeeds and returns the requested slice of up to 1000 records along with
the true total. -/
def honestResp (table : List Rec) (offset : Nat) : PageResp :=
.ok ((table.drop offset).take dlBatch) table.length

/-- pd.DataFrame(list-of-dicts): the columns are the union of the record
keys in order of first appearance; missing keys are filled with NaN. -/
def collectColumns (recs : List Rec) : List String :=
recs.foldl (fun acc r => acc ++ (r.map Prod.fst).filter (fun k => !(acc.contains k))) []

def dfOfRecords (recs : List Rec) : DF :=
let cols := collectColumns recs
⟨cols, recs.map (fun r => cols.map (fun c => (r.lookup c).getD Value.vnan))⟩

/-- One column of the datetime conversion of lines 208-211 and 315-318:
pd.to_datetime(format=%Y-%m-%d, errors=coerce).dt.strftime when the column
is present, applied unconditionally (no dtype guard). -/
def convertCol (d : DF) (c : String) : DF :=
match idxOf d.columns c with
| none => d
| some i => { d with rows := d.rows.map (fun r => r.set i (normalizeValue (r.getD i .vnan))) }

/-- The conversion loop over the tstamp and release_date columns. -/
def convertTsCols (df : DF) : DF :=
["tstamp", "release_date"].foldl convertCol df

/-- to_dict(orient=records) followed by the cleaning loop that keeps only
fields with pd.notna(v) true (NaN/NaT/None dropped). -/
def cleanedRecords (df : DF) : List Rec :=
df.rows.map (fun r => ((df.columns.zip r).filter (fun p => p.2 ≠ Value.vnan)))

/-- Response of the datastore_upsert endpoint to the bulk insert call. -/
inductive UpsertResp where
| success
| conflictError
| otherError
deriving DecidableEq, Repr

/-- The create payload assembled for datastore_create: fields schema,
cleaned records, and the optional primary-key column list. -/
structure CreatePayload where
fields : List (String × String)
records : List Rec
primaryKey : Option (List String)
deriving DecidableEq, Repr

/-- One outgoing HTTP call of the driver. -/
inductive Call where
| search (offset : Nat)
| upsert (records : List Rec)
| dsDelete
| dsCreate (p : CreatePayload)
deriving DecidableEq, Repr

def isCreateCall : Call → Bool
| .dsCreate _ => true
| _ => false

def isUpsertCall : Call → Bool
| .upsert _ => true
| _ => false

/-- append_to_datastore (lines 186-271) against an arbitrary page-serving
behaviour for the existing-data download and a given response to the bulk
insert.  Returns (reported success, remote table afterwards, outgoing
calls).  On any insert failure (success=false envelope, non-200 status,
or exception) the function just logs and returns False: there is no
retry, no recreate, no second call. -/
def append_core (pages : Nat → PageResp) (remote : List Rec) (df : DF) (resp : UpsertResp) :
    Bool × List Rec × List Call :=
let dl := dl_go pages 100 0 []
let calls := dl.2.map Call.search
match dl.1 with
| none => (false, remote, calls)
| some recs =>
  let existing_df := dfOfRecords recs
  let fd := filter_duplicates df existing_df UNIQUE_COLUMNS
  if fd.1.rows.length = 0 then (true, remote, calls)
  else
    let cleaned := cleanedRecords (convertTsCols fd.1)
    match resp with
    | .success => (true, remote ++ cleaned, calls ++ [Call.upsert cleaned])
    | .conflictError => (false, remote, calls ++ [Call.upsert cleaned])
    | .otherError => (false, remote, calls ++ [Call.upsert cleaned])

/-- append_to_datastore with the download served honestly from the current
remote table contents. -/
def append_to_datastore (remote : List Rec) (df : DF) (resp : UpsertResp) :
    Bool × List Rec × List Call :=
append_core (honestResp remote) remote df resp

/-- str(df[col].dtype) for a column: int64 for all-integer columns, bool
for all-boolean ones, float64 for integer/NaN mixtures, object otherwise
(any string present). -/
def dtypeStr (vals : List Value) : String :=
if !vals.isEmpty && vals.all (fun v => match v with | .vint _ => true | _ => false) then "int64"
else if !vals.isEmpty && vals.all (fun v => match v with | .vbool _ => true | _ => false) then "bool"
else if !vals.isEmpty && vals.all (fun v => match v with | .vint _ => true | .vnan => true | _ => false) then "float64"
else "object"

/-- The field-type chain of create_datastore_without_primary_key and
create_resource_with_datastore (int in dtype, float in dtype, bool in
dtype, then the tstamp/release_date name check, else text). -/
def fieldTypeOf (c : String) (vals : List Value) : String :=
let d := dtypeStr vals
if d = "int64" then "int"
else if d = "float64" then "numeric"
else if d = "bool" then "bool"
else if c = "tstamp" || c = "release_date" then "timestamp"
else "text"

/-- The datastore_create payload built by
create_datastore_without_primary_key (lines 293-342): fields from the
original dtypes, records from the frame after the tstamp/release_date
conversion, and no primary_key at all. -/
def create_datastore_payload (df : DF) : CreatePayload :=
let fields := df.columns.map (fun c => (c, fieldTypeOf c (colVals df c)))
let records := cleanedRecords (convertTsCols df)
⟨fields, records, none⟩

/-- The outgoing calls of create_datastore_without_primary_key: one
datastore_delete attempt, then exactly one datastore_create. -/
def create_datastore_calls (df : DF) : List Call :=
[Call.dsDelete, Call.dsCreate (create_datastore_payload df)]

/-- get_empty_stats of 2CKANActionAPI.py, with the current date passed in
explicitly. -/
def empty_stats (today : String) : Rec :=
[("num_datasets", .vstr "0"), ("num_groups", .vstr "0"),
 ("num_organizations", .vstr "0"), ("ckan_version", .vstr ""),
 ("extensions", .vstr ""), ("tstamp", .vstr today)]

/-- dict.update semantics: existing keys keep their place and get the new
value, new keys are appended in update order. -/
def setKey (r : Rec) (k : String) (v : Value) : Rec :=
if r.any (fun p => p.1 = k) then r.map (fun p => if p.1 = k then (k, v) else p)
else r ++ [(k, v)]

def dictUpdate (r upd : Rec) : Rec :=
upd.foldl (fun acc p => setKey acc p.1 p.2) r

/-- The value written into slot i of processed_rows by the as_completed
loop of SimpleCKANExtractor.process_csv (lines 187-195): the worker's
result when future.result() returns, otherwise a copy of the input row
updated with empty stats. -/
def slotValue (rows : List Rec) (worker : Nat → Except String Rec) (today : String)
    (i : Nat) : Rec :=
match worker i with
| .ok r => r
| .error _ => dictUpdate (rows.getD i []) (empty_stats today)

/-- The result-collection skeleton of process_csv: a preallocated
index-addressed array of length len(rows), filled by iterating over the
futures in completion order (an arbitrary sequence of indices), each
completed future writing exactly its own slot. -/
def process_csv_collect (rows : List Rec) (worker : Nat → Except String Rec)
    (today : String) (perm : List Nat) : List (Option Rec) :=
perm.foldl (fun acc i => acc.set i (some (slotValue rows worker today i)))
  (List.replicate rows.length none)

/-- A one-row batch whose identity values differ from the existing row. -/
def dfC1new : DF := ⟨["repository_name", "tstamp"], [[.vstr "a", .vstr "2024-01-02"]]⟩

def dfC1ex : DF := ⟨["repository_name", "tstamp"], [[.vstr "b", .vstr "2024-01-02"]]⟩

def dfC2batch : DF := ⟨["repository_name", "tstamp"], [[.vstr "a", .vstr "2024-01-01"]]⟩

/-- The empty DataFrame returned by download_existing_data when the
datastore holds no records. -/
def dfEmptyTable : DF := ⟨[], []⟩

def dfC4 : DF :=
⟨["repository_name", "tstamp", "stars"], [[.vstr "a", .vstr "2024-01-01", .vint 5]]⟩

/-- First run of the driver on an initially empty remote table. -/
def runC4a : Bool × List Rec × List Call := append_to_datastore [] dfC4 UpsertResp.success

/-- Second run with the same batch against the state the first run left. -/
def runC4b : Bool × List Rec × List Call :=
append_to_datastore runC4a.2.1 dfC4 UpsertResp.success

def dfC5 : DF :=
⟨["repository_name", "tstamp", "stars"],
 [[.vstr "e1", .vstr "2024-01-01", .vint 1],
  [.vstr "e2", .vstr "2024-01-01", .vint 2],
  [.vstr "e3", .vstr "2024-01-01", .vint 3]]⟩

def remoteC6 : List Rec :=
[[("repository_name", .vstr "old"), ("tstamp", .vstr "2023-12-31T00:00:00"),
  ("stars", .vint 1)]]

def dfC6 : DF :=
⟨["repository_name", "tstamp", "stars"], [[.vstr "b", .vstr "2024-01-02", .vint 2]]⟩

def dfC7new : DF := ⟨["repository_name", "tstamp"], [[.vstr "a", .vstr "2024-01-01"]]⟩

/-- The same logical row as dfC7new's, with the timestamp denoting the
same instant in the ISO form the datastore hands back. -/
def dfC7ex : DF := ⟨["repository_name", "tstamp"], [[.vstr "a", .vstr "2024-01-01T00:00:00"]]⟩

def dfC8new : DF := ⟨["repository_name", "tstamp"], [[.vstr "x", .vstr "2024-03-05"]]⟩

def dfC8ex : DF := ⟨["repository_name", "tstamp"], [[.vstr "y", .vstr "2024-03-06"]]⟩

def recC10a : Rec := [("repository_name", .vstr "r1"), ("tstamp", .vstr "2024-01-01T00:00:00")]

def recC10b : Rec := [("repository_name", .vstr "r2"), ("tstamp", .vstr "2024-01-01T00:00:00")]

/-- A remote table of two records. -/
def tableC10 : List Rec := [recC10a, recC10b]

/-- A server that answers the first page with one record (reporting the
true total of two) and then fails with a non-200 status. -/
def respC10 (offset : Nat) : PageResp :=
if offset = 0 then .ok [recC10a] 2 else .badStatus

def rowsC9 : List Rec :=
[[("url", .vstr "https://a.example")], [("url", .vstr "https://b.example")],
 [("url", .vstr "")]]

/-- A worker double whose middle task fails at future.result(). -/
def workerC9 (i : Nat) : Except String Rec :=
if i = 1 then .error "boom" else .ok [("idx", .vint (Int.ofNat i))]

end CkanTS

namespace CkanTS

/-- C1 counterexample: with identity columns repository_name and tstamp, a
batch row (a, 2024-01-02) whose composite key a-2024-01-02 (its
identity-column values stringified and joined by the dash separator) is
absent from the existing table's composite keys (b-2024-01-02) is
nevertheless classified as a duplicate, because the engine first rewrites
both repository names to nan via its timestamp-normalization pass, so the
claimed iff fails on the code as stated. -/
theorem C1_counterexample :
    (filter_duplicates dfC1new dfC1ex UNIQUE_COLUMNS).1.rows = []
    ∧ (filter_duplicates dfC1new dfC1ex UNIQUE_COLUMNS).2.1.rows.length = 1
    ∧ (dfC1ex.rows.map (compositeKey UNIQUE_COLUMNS dfC1ex.columns)).contains
        (compositeKey UNIQUE_COLUMNS dfC1new.columns (dfC1new.rows.getD 0 [])) = false := by
  decide

/-- C2: the code violates the disjoint-partition property.  With an empty
existing table, filter_duplicates returns the whole one-row batch both as
new_rows and as duplicate_rows (the early return hands back new_df and a
full copy of it), so the two outputs are not disjoint and their union
counts every batch row twice. -/
theorem C2_empty_existing_not_partition :
    (filter_duplicates dfC2batch dfEmptyTable UNIQUE_COLUMNS).1 = dfC2batch
    ∧ (filter_duplicates dfC2batch dfEmptyTable UNIQUE_COLUMNS).2.1 = dfC2batch
    ∧ dfC2batch.rows ≠ [] := by
  decide

/-- C3: with an empty existing table (keys trivially disjoint from the
batch), duplicate_rows comes back equal to the whole non-empty batch
instead of the empty collection the claim requires. -/
theorem C3_empty_existing_duplicates_nonempty :
    (filter_duplicates dfC2batch dfEmptyTable UNIQUE_COLUMNS).2.1.rows = dfC2batch.rows
    ∧ dfC2batch.rows ≠ [] := by
  decide

/-- C4: the driver is not idempotent.  Starting from an empty remote
table, the first run inserts the row with its timestamp rewritten to ISO
form; on the second run with the same batch the existing ISO timestamp
fails the exact %Y-%m-%d parse and stringifies as nan, so the same row is
classified as new again, a second insert call is submitted (whose record
has lost both identity columns to the NaN cleaning), and the resulting
table differs from the one-run table. -/
theorem C4_not_idempotent :
    runC4a.1 = true ∧ runC4b.1 = true
    ∧ runC4b.2.1 ≠ runC4a.2.1
    ∧ runC4b.2.2.countP isUpsertCall = 1
    ∧ runC4b.2.1 = runC4a.2.1 ++ [[("stars", Value.vint 5)]] := by
  decide

/-- C5 counterexample: the datastore_create payload built for a three-row
batch carries no key constraint at all: primary_key is absent, not the
configured identity columns (the script is explicitly the no-primary-key
variant). -/
theorem C5_counterexample :
    (create_datastore_payload dfC5).primaryKey = none
    ∧ (create_datastore_payload dfC5).primaryKey ≠ some UNIQUE_COLUMNS
    ∧ dfC5.rows.length = 3 := by
  decide

/-- C6 counterexample: when the bulk insert answers with a conflict, the
driver reports failure, leaves the remote table unchanged, and issues zero
recreate (datastore_create) calls, not the exactly-one the claim
describes. -/
theorem C6_counterexample :
    (append_to_datastore remoteC6 dfC6 UpsertResp.conflictError).1 = false
    ∧ (append_to_datastore remoteC6 dfC6 UpsertResp.conflictError).2.2.countP isCreateCall = 0
    ∧ (append_to_datastore remoteC6 dfC6 UpsertResp.conflictError).2.2.countP isUpsertCall = 1
    ∧ (append_to_datastore remoteC6 dfC6 UpsertResp.conflictError).2.1 = remoteC6 := by
  decide

/-- C7: normalization does not produce the canonical form on both sides
and does not leave non-timestamp identity columns alone.  For a batch row
(a, 2024-01-01) and an existing row (a, 2024-01-01T00:00:00) denoting the
same instant, the engine classifies the batch row as new (keys differ),
because the ISO-formatted existing timestamp fails the exact %Y-%m-%d
parse and becomes NaN, and the repository_name column is coerced to NaN
on both sides instead of keeping its original values. -/
theorem C7_normalization_mangles_values :
    (filter_duplicates dfC7new dfC7ex UNIQUE_COLUMNS).1.rows.length = 1
    ∧ (filter_duplicates dfC7new dfC7ex UNIQUE_COLUMNS).2.1.rows = []
    ∧ (normalizeDF dfC7new UNIQUE_COLUMNS).rows = [[Value.vnan, Value.vstr "2024-01-01T00:00:00"]]
    ∧ (normalizeDF dfC7ex UNIQUE_COLUMNS).rows = [[Value.vnan, Value.vnan]] := by
  decide

/-- C8 counterexample: filter_duplicates mutates both of its inputs in
place: after the call the caller's batch and existing table hold the
normalized (mangled) identity values, not their original ones. -/
theorem C8_counterexample :
    (filter_duplicates dfC8new dfC8ex UNIQUE_COLUMNS).2.2.1 ≠ dfC8new
    ∧ (filter_duplicates dfC8new dfC8ex UNIQUE_COLUMNS).2.2.2 ≠ dfC8ex := by
  decide

theorem normalizeCol_columns (df : DF) (c : String) :
    (normalizeCol df c).columns = df.columns := by
  unfold normalizeCol
  split
  · rfl
  · split <;> rfl

theorem normalizeDF_columns (df : DF) (ucols : List String) :
    (normalizeDF df ucols).columns = df.columns := by
  induction ucols generalizing df with
  | nil => rfl
  | cons c cs ih =>
    show (normalizeDF (normalizeCol df c) cs).columns = df.columns
    rw [ih, normalizeCol_columns]

theorem normalizeCol_rows_length (df : DF) (c : String) :
    (normalizeCol df c).rows.length = df.rows.length := by
  unfold normalizeCol
  split
  · rfl
  · split
    · simp
    · rfl

theorem normalizeDF_rows_length (df : DF) (ucols : List String) :
    (normalizeDF df ucols).rows.length = df.rows.length := by
  induction ucols generalizing df with
  | nil => rfl
  | cons c cs ih =>
    show (normalizeDF (normalizeCol df c) cs).rows.length = df.rows.length
    rw [ih, normalizeCol_rows_length]

theorem WF_normalizeCol {df : DF} {c : String} (h : WF df) : WF (normalizeCol df c) := by
  unfold normalizeCol
  split
  · exact h
  · split
    · intro r hr
      simp only [List.mem_map] at hr
      obtain ⟨r0, hr0, rfl⟩ := hr
      simpa [List.length_set] using h r0 hr0
    · exact h

theorem WF_normalizeDF {df : DF} {ucols : List String} (h : WF df) :
    WF (normalizeDF df ucols) := by
  induction ucols generalizing df with
  | nil => exact h
  | cons c cs ih => exact ih (WF_normalizeCol h)

theorem idxOf_eq_none {cols : List String} {c : String} (h : c ∉ cols) :
    idxOf cols c = none := by
  induction cols with
  | nil => rfl
  | cons x xs ih =>
    have hx : ¬(x = c) := fun he => h (he ▸ List.mem_cons_self x xs)
    have ht : c ∉ xs := fun hm => h (List.mem_cons_of_mem x hm)
    simp [idxOf, hx, ih ht]

theorem idxOf_append_self {cols : List String} {c : String} (h : c ∉ cols) :
    idxOf (cols ++ [c]) c = some cols.length := by
  induction cols with
  | nil => simp [idxOf]
  | cons x xs ih =>
    have hx : ¬(x = c) := fun he => h (he ▸ List.mem_cons_self x xs)
    have ht : c ∉ xs := fun hm => h (List.mem_cons_of_mem x hm)
    simp [idxOf, hx, ih ht]

theorem getD_snoc_length {α : Type} (l : List α) (a d : α) :
    (l ++ [a]).getD l.length d = a := by
  induction l with
  | nil => rfl
  | cons x xs ih => simp [ih]

theorem eraseIdx_snoc_length {α : Type} (l : List α) (a : α) :
    (l ++ [a]).eraseIdx l.length = l := by
  induction l with
  | nil => rfl
  | cons x xs ih => simpa using ih

theorem zipWith_self_map {α β γ : Type} (l : List α) (f : α → β) (g : α → β → γ) :
    List.zipWith g l (l.map f) = l.map (fun x => g x (f x)) := by
  induction l with
  | nil => rfl
  | cons x xs ih => simp [ih]

theorem filter_map_comm {α β : Type} (l : List α) (g : α → β) (p : β → Bool) :
    (l.map g).filter p = (l.filter (fun x => p (g x))).map g := by
  induction l with
  | nil => rfl
  | cons x xs ih =>
    by_cases hx : p (g x) = true
    · simp [hx, ih]
    · simp only [Bool.not_eq_true] at hx
      simp [hx, ih]

theorem withKeys_eq {df : DF} {uc : List String} (h : "_composite_key" ∉ df.columns) :
    withKeys df uc = ⟨df.columns ++ ["_composite_key"],
      df.rows.map (fun r => r ++ [Value.vstr (compositeKey uc df.columns r)])⟩ := by
  unfold withKeys setCol
  rw [idxOf_eq_none h]
  simp [zipWith_self_map]

theorem rowKeyStr_snoc {cols : List String} {r : List Value}
    (h : "_composite_key" ∉ cols) (hlen : r.length = cols.length) (k : String) :
    rowKeyStr (cols ++ ["_composite_key"]) (r ++ [Value.vstr k]) = k := by
  unfold rowKeyStr rowVal
  rw [idxOf_append_self h, ← hlen]
  simp [getD_snoc_length, strOfValue]

theorem dropCol_snoc {cols : List String} {rows : List (List Value)}
    (h : "_composite_key" ∉ cols) (hwf : ∀ r ∈ rows, r.length = cols.length)
    (f : List Value → Value) :
    dropCol ⟨cols ++ ["_composite_key"], rows.map (fun r => r ++ [f r])⟩ "_composite_key"
      = ⟨cols, rows⟩ := by
  unfold dropCol
  rw [idxOf_append_self h]
  simp only [List.map_map]
  refine congrArg₂ DF.mk ?_ ?_
  · exact eraseIdx_snoc_length cols "_composite_key"
  · rw [List.map_congr_left (fun r hr => ?_), List.map_id]
    show (r ++ [f r]).eraseIdx cols.length = r
    rw [← hwf r hr, eraseIdx_snoc_length]

theorem keyfilter_rows (df : DF) (uc : List String) (p : String → Bool)
    (hk : "_composite_key" ∉ df.columns) (hwf : WF df) :
    (withKeys df uc).rows.filter (fun r => p (rowKeyStr (withKeys df uc).columns r))
      = (df.rows.filter (fun r => p (compositeKey uc df.columns r))).map
          (fun r => r ++ [Value.vstr (compositeKey uc df.columns r)]) := by
  rw [withKeys_eq hk]
  dsimp only
  rw [filter_map_comm]
  refine congrArg (List.map _) (List.filter_congr (fun r hr => ?_))
  rw [rowKeyStr_snoc hk (hwf r hr)]

theorem keyfilter_drop (df : DF) (uc : List String) (p : String → Bool)
    (hk : "_composite_key" ∉ df.columns) (hwf : WF df) :
    dropCol ⟨(withKeys df uc).columns,
        (withKeys df uc).rows.filter (fun r => p (rowKeyStr (withKeys df uc).columns r))⟩
      "_composite_key"
      = ⟨df.columns, df.rows.filter (fun r => p (compositeKey uc df.columns r))⟩ := by
  rw [keyfilter_rows df uc p hk hwf, withKeys_eq hk]
  exact dropCol_snoc hk (fun r hr => hwf r (List.mem_of_mem_filter hr)) _

theorem withKeys_columns_ne_nil (df : DF) (uc : List String)
    (hk : "_composite_key" ∉ df.columns) :
    (withKeys df uc).columns.isEmpty = false := by
  rw [withKeys_eq hk]
  simp

theorem keyfilter_guard_rows (df : DF) (uc : List String) (p : String → Bool)
    (hk : "_composite_key" ∉ df.columns) (hwf : WF df) :
    (if (⟨(withKeys df uc).columns,
          (withKeys df uc).rows.filter
            (fun r => p (rowKeyStr (withKeys df uc).columns r))⟩ : DF).empty
      then (⟨(withKeys df uc).columns,
          (withKeys df uc).rows.filter
            (fun r => p (rowKeyStr (withKeys df uc).columns r))⟩ : DF)
      else dropCol ⟨(withKeys df uc).columns,
          (withKeys df uc).rows.filter
            (fun r => p (rowKeyStr (withKeys df uc).columns r))⟩ "_composite_key").rows
      = df.rows.filter (fun r => p (compositeKey uc df.columns r)) := by
  split
  case isTrue h =>
    simp only [DF.empty, Bool.or_eq_true] at h
    rcases h with h | h
    · have hL : (withKeys df uc).rows.filter
          (fun r => p (rowKeyStr (withKeys df uc).columns r)) = [] := by
        simpa [List.isEmpty_iff] using h
      rw [keyfilter_rows df uc p hk hwf] at hL
      have h0 := List.map_eq_nil_iff.mp hL
      show (withKeys df uc).rows.filter
          (fun r => p (rowKeyStr (withKeys df uc).columns r)) = _
      rw [keyfilter_rows df uc p hk hwf, h0]
      rfl
    · rw [withKeys_columns_ne_nil df uc hk] at h
      exact absurd h (by simp)
  case isFalse h =>
    rw [keyfilter_drop df uc p hk hwf]

/-- The main branch of filter_duplicates in closed form: truly_new is the
normalized batch filtered by absence of the normalized composite key from
the normalized existing keys, duplicates is the complementary filter, and
(for non-empty inputs) the two mutated frames come back normalized with
the helper column dropped. -/
theorem filter_main_shape (new existing : DF) (ucols : List String)
    (hWn : WF new) (hWe : WF existing)
    (hkn : "_composite_key" ∉ new.columns) (hke : "_composite_key" ∉ existing.columns) :
    (filter_main new existing ucols).1
      = ⟨new.columns, (normalizeDF new ucols).rows.filter
          (fun r => !(((normalizeDF existing ucols).rows.map
              (fun r2 => compositeKey ucols existing.columns r2)).contains
            (compositeKey ucols new.columns r)))⟩
    ∧ (filter_main new existing ucols).2.1.rows
      = (normalizeDF new ucols).rows.filter
          (fun r => ((normalizeDF existing ucols).rows.map
              (fun r2 => compositeKey ucols existing.columns r2)).contains
            (compositeKey ucols new.columns r))
    ∧ (new.rows ≠ [] → (filter_main new existing ucols).2.2.1 = normalizeDF new ucols)
    ∧ (existing.rows ≠ [] → (filter_main new existing ucols).2.2.2 = normalizeDF existing ucols) := by
  have hcn := normalizeDF_columns new ucols
  have hce := normalizeDF_columns existing ucols
  have hWn1 : WF (normalizeDF new ucols) := WF_normalizeDF hWn
  have hWe1 : WF (normalizeDF existing ucols) := WF_normalizeDF hWe
  have hkn1 : "_composite_key" ∉ (normalizeDF new ucols).columns := by
    rw [hcn]; exact hkn
  have hke1 : "_composite_key" ∉ (normalizeDF existing ucols).columns := by
    rw [hce]; exact hke
  have hkeysE : (withKeys (normalizeDF existing ucols) ucols).rows.map
        (fun r => rowKeyStr (withKeys (normalizeDF existing ucols) ucols).columns r)
      = (normalizeDF existing ucols).rows.map
        (fun r2 => compositeKey ucols existing.columns r2) := by
    rw [withKeys_eq hke1]
    dsimp only
    rw [List.map_map]
    refine List.map_congr_left (fun r hr => ?_)
    show rowKeyStr _ _ = _
    rw [rowKeyStr_snoc hke1 (hWe1 r hr), hce]
  refine ⟨?_, ?_, ?_, ?_⟩
  · refine Eq.trans (keyfilter_drop (normalizeDF new ucols) ucols
      (fun s => !(((withKeys (normalizeDF existing ucols) ucols).rows.map
        (fun r => rowKeyStr (withKeys (normalizeDF existing ucols) ucols).columns r)).contains s))
      hkn1 hWn1) ?_
    rw [hkeysE, hcn]
  · refine Eq.trans (keyfilter_guard_rows (normalizeDF new ucols) ucols
      (fun s => ((withKeys (normalizeDF existing ucols) ucols).rows.map
        (fun r => rowKeyStr (withKeys (normalizeDF existing ucols) ucols).columns r)).contains s)
      hkn1 hWn1) ?_
    rw [hkeysE, hcn]
  · intro hnn
    have hlen : (normalizeDF new ucols).rows ≠ [] := by
      intro h0
      apply hnn
      have hl := normalizeDF_rows_length new ucols
      rw [h0] at hl
      exact List.length_eq_zero.mp hl.symm
    have hnot : (withKeys (normalizeDF new ucols) ucols).empty = false := by
      rw [withKeys_eq hkn1]
      simp [DF.empty, List.isEmpty_iff, hlen]
    show (if (withKeys (normalizeDF new ucols) ucols).empty
        then withKeys (normalizeDF new ucols) ucols
        else dropCol (withKeys (normalizeDF new ucols) ucols) "_composite_key")
      = normalizeDF new ucols
    rw [hnot]
    simp only [Bool.false_eq_true, if_false]
    rw [withKeys_eq hkn1]
    exact dropCol_snoc hkn1 hWn1 _
  · intro hee
    have hlen : (normalizeDF existing ucols).rows ≠ [] := by
      intro h0
      apply hee
      have hl := normalizeDF_rows_length existing ucols
      rw [h0] at hl
      exact List.length_eq_zero.mp hl.symm
    have hnot : (withKeys (normalizeDF existing ucols) ucols).empty = false := by
      rw [withKeys_eq hke1]
      simp [DF.empty, List.isEmpty_iff, hlen]
    show (if (withKeys (normalizeDF existing ucols) ucols).empty
        then withKeys (normalizeDF existing ucols) ucols
        else dropCol (withKeys (normalizeDF existing ucols) ucols) "_composite_key")
      = normalizeDF existing ucols
    rw [hnot]
    simp only [Bool.false_eq_true, if_false]
    rw [withKeys_eq hke1]
    exact dropCol_snoc hke1 hWe1 _

/-- C1 amended: on the main path (existing table non-empty, all identity
columns present on both sides, no pre-existing helper column, well-formed
frames), filter_duplicates classifies a batch row as new iff the composite
key formed from the row AFTER the in-place normalization pass (object
identity columns parsed with the exact %Y-%m-%d format, successes
rewritten to %Y-%m-%dT%H:%M:%S, failures coerced and stringified as nan)
is absent from the set of equally normalized composite keys of the
existing table; rows with a present normalized key land in
duplicate_rows, both partitions in input order. -/
theorem C1_amended_membership (new existing : DF) (ucols : List String)
    (hWn : WF new) (hWe : WF existing)
    (hkn : "_composite_key" ∉ new.columns) (hke : "_composite_key" ∉ existing.columns)
    (hne : existing.empty = false)
    (hcols : (ucols.any
      (fun c => !(new.columns.contains c) || !(existing.columns.contains c))) = false) :
    (filter_duplicates new existing ucols).1.rows
      = (normalizeDF new ucols).rows.filter
          (fun r => !(((normalizeDF existing ucols).rows.map
              (fun r2 => compositeKey ucols existing.columns r2)).contains
            (compositeKey ucols new.columns r)))
    ∧ (filter_duplicates new existing ucols).2.1.rows
      = (normalizeDF new ucols).rows.filter
          (fun r => ((normalizeDF existing ucols).rows.map
              (fun r2 => compositeKey ucols existing.columns r2)).contains
            (compositeKey ucols new.columns r)) := by
  have hfd : filter_duplicates new existing ucols = filter_main new existing ucols := by
    unfold filter_duplicates
    rw [hne, hcols]
    simp
  have hs := filter_main_shape new existing ucols hWn hWe hkn hke
  rw [hfd]
  exact ⟨by rw [hs.1], hs.2.1⟩

/-- Witness instantiating C1_amended_membership at a concrete main-path
input. -/
theorem C1_amended_witness :
    (filter_duplicates dfC1new dfC1ex UNIQUE_COLUMNS).1.rows
      = (normalizeDF dfC1new UNIQUE_COLUMNS).rows.filter
          (fun r => !(((normalizeDF dfC1ex UNIQUE_COLUMNS).rows.map
              (fun r2 => compositeKey UNIQUE_COLUMNS dfC1ex.columns r2)).contains
            (compositeKey UNIQUE_COLUMNS dfC1new.columns r)))
    ∧ (filter_duplicates dfC1new dfC1ex UNIQUE_COLUMNS).2.1.rows
      = (normalizeDF dfC1new UNIQUE_COLUMNS).rows.filter
          (fun r => ((normalizeDF dfC1ex UNIQUE_COLUMNS).rows.map
              (fun r2 => compositeKey UNIQUE_COLUMNS dfC1ex.columns r2)).contains
            (compositeKey UNIQUE_COLUMNS dfC1new.columns r)) :=
  C1_amended_membership dfC1new dfC1ex UNIQUE_COLUMNS (by unfold WF; decide)
    (by unfold WF; decide) (by decide) (by decide) (by decide) (by decide)

/-- C8 amended: the Delta Engine performs no remote I/O but is not pure
over its inputs: on the main path with non-empty frames, the caller's
batch and existing table come back exactly normalized in place (identity
columns rewritten by the timestamp pass), the only consolation being that
the helper composite-key column does not survive (the returned frames
keep their original column lists). -/
theorem C8_amended_mutation (new existing : DF) (ucols : List String)
    (hWn : WF new) (hWe : WF existing)
    (hkn : "_composite_key" ∉ new.columns) (hke : "_composite_key" ∉ existing.columns)
    (hne : existing.empty = false)
    (hcols : (ucols.any
      (fun c => !(new.columns.contains c) || !(existing.columns.contains c))) = false)
    (hnn : new.rows ≠ []) :
    (filter_duplicates new existing ucols).2.2.1 = normalizeDF new ucols
    ∧ (filter_duplicates new existing ucols).2.2.2 = normalizeDF existing ucols
    ∧ (filter_duplicates new existing ucols).2.2.1.columns = new.columns
    ∧ (filter_duplicates new existing ucols).2.2.2.columns = existing.columns := by
  have hfd : filter_duplicates new existing ucols = filter_main new existing ucols := by
    unfold filter_duplicates
    rw [hne, hcols]
    simp
  have hee : existing.rows ≠ [] := by
    intro h0
    have : existing.empty = true := by simp [DF.empty, h0]
    rw [hne] at this
    exact absurd this (by simp)
  have hs := filter_main_shape new existing ucols hWn hWe hkn hke
  rw [hfd]
  refine ⟨hs.2.2.1 hnn, hs.2.2.2 hee, ?_, ?_⟩
  · rw [hs.2.2.1 hnn, normalizeDF_columns]
  · rw [hs.2.2.2 hee, normalizeDF_columns]

theorem convertCol_rows_length (d : DF) (c : String) :
    (convertCol d c).rows.length = d.rows.length := by
  unfold convertCol
  split
  · rfl
  · simp

theorem convertTsCols_rows_length (df : DF) :
    (convertTsCols df).rows.length = df.rows.length := by
  show (convertCol (convertCol df "tstamp") "release_date").rows.length = df.rows.length
  rw [convertCol_rows_length, convertCol_rows_length]

/-- C5 amended: for the Absent remote state the driver issues exactly one
datastore_create call; the payload carries the schema derived from the
batch dtypes and one cleaned record per batch row, but no key constraint
at all: primary_key is deliberately omitted (the script is the
no-primary-key variant), so the table ends Active without a key. -/
theorem C5_amended_create (df : DF) :
    create_datastore_calls df
      = [Call.dsDelete, Call.dsCreate (create_datastore_payload df)]
    ∧ (create_datastore_calls df).countP isCreateCall = 1
    ∧ (create_datastore_payload df).primaryKey = none
    ∧ (create_datastore_payload df).records.length = df.rows.length
    ∧ (create_datastore_payload df).fields
      = df.columns.map (fun c => (c, fieldTypeOf c (colVals df c))) := by
  refine ⟨rfl, rfl, rfl, ?_, rfl⟩
  show (cleanedRecords (convertTsCols df)).length = df.rows.length
  unfold cleanedRecords
  rw [List.length_map, convertTsCols_rows_length]

theorem honest_dl_isSome (remote : List Rec) :
    ∀ fuel offset acc, (dl_go (honestResp remote) fuel offset acc).1.isSome = true := by
  intro fuel
  induction fuel with
  | zero => intro offset acc; rfl
  | succ n ih =>
    intro offset acc
    simp only [dl_go, honestResp]
    split
    · split
      · rfl
      · split
        · rfl
        · exact ih _ _
    · rfl

theorem countP_search_zero (l : List Nat) :
    (l.map Call.search).countP isCreateCall = 0 := by
  induction l with
  | nil => rfl
  | cons x xs ih => simp [List.countP_cons, isCreateCall, ih]

/-- C6 amended: on a bulk-insert failure (ConflictError included) the
driver issues zero recreate (datastore_create) calls, leaves the remote
table unchanged, and reports success only in the case where the computed
delta was empty and no insert was ever submitted; a non-empty delta whose
insert conflicts is reported as plain failure, with no retry of any
kind. -/
theorem C6_amended_no_recreate (remote : List Rec) (df : DF) :
    (append_to_datastore remote df UpsertResp.conflictError).2.2.countP isCreateCall = 0
    ∧ (append_to_datastore remote df UpsertResp.conflictError).2.1 = remote
    ∧ ((append_to_datastore remote df UpsertResp.conflictError).1 = true
        ↔ (filter_duplicates df
            (dfOfRecords (((dl_go (honestResp remote) 100 0 []).1).getD []))
            UNIQUE_COLUMNS).1.rows.length = 0) := by
  have hsome := honest_dl_isSome remote 100 0 []
  unfold append_to_datastore append_core
  dsimp only
  cases hdl : (dl_go (honestResp remote) 100 0 []).1 with
  | none =>
    rw [hdl] at hsome
    simp at hsome
  | some recs =>
    dsimp only
    by_cases hz : (filter_duplicates df (dfOfRecords recs) UNIQUE_COLUMNS).1.rows.length = 0
    · rw [if_pos hz]
      refine ⟨countP_search_zero _, rfl, ?_⟩
      simp [hz]
    · rw [if_neg hz]
      refine ⟨?_, rfl, ?_⟩
      · rw [List.countP_append, countP_search_zero]
        rfl
      · simp [hz]

/-- Witness instantiating C8_amended_mutation at a concrete main-path
input. -/
theorem C8_amended_witness :
    (filter_duplicates dfC8new dfC8ex UNIQUE_COLUMNS).2.2.1 = normalizeDF dfC8new UNIQUE_COLUMNS
    ∧ (filter_duplicates dfC8new dfC8ex UNIQUE_COLUMNS).2.2.2 = normalizeDF dfC8ex UNIQUE_COLUMNS
    ∧ (filter_duplicates dfC8new dfC8ex UNIQUE_COLUMNS).2.2.1.columns = dfC8new.columns
    ∧ (filter_duplicates dfC8new dfC8ex UNIQUE_COLUMNS).2.2.2.columns = dfC8ex.columns :=
  C8_amended_mutation dfC8new dfC8ex UNIQUE_COLUMNS (by unfold WF; decide)
    (by unfold WF; decide) (by decide) (by decide) (by decide) (by decide) (by decide)

theorem get?_set_self {a : Type} : forall (l : List a) (i : Nat) (x : a),
    i < l.length → (l.set i x).get? i = some x := by
  intro l
  induction l with
  | nil => intro i x h; cases h
  | cons y ys ih =>
    intro i x h
    cases i with
    | zero => rfl
    | succ j => exact ih j x (Nat.lt_of_succ_lt_succ h)

theorem get?_set_other {a : Type} : forall (l : List a) (i j : Nat) (x : a),
    i ≠ j → (l.set i x).get? j = l.get? j := by
  intro l
  induction l with
  | nil => intro i j x _; rfl
  | cons y ys ih =>
    intro i j x hij
    cases i with
    | zero =>
      cases j with
      | zero => exact absurd rfl hij
      | succ k => rfl
    | succ i2 =>
      cases j with
      | zero => rfl
      | succ k => exact ih i2 k x (fun he => hij (by rw [he]))

theorem foldl_set_length {a : Type} (l : List Nat) (f : Nat → a) :
    forall (init : List a),
    (l.foldl (fun acc i => acc.set i (f i)) init).length = init.length := by
  induction l with
  | nil => intro init; rfl
  | cons i t ih =>
    intro init
    rw [List.foldl_cons, ih, List.length_set]

theorem foldl_set_get_not_mem {a : Type} (l : List Nat) (f : Nat → a) :
    forall (init : List a) (j : Nat), j ∉ l →
    (l.foldl (fun acc i => acc.set i (f i)) init).get? j = init.get? j := by
  induction l with
  | nil => intro init j _; rfl
  | cons i t ih =>
    intro init j hj
    have hji : i ≠ j := fun he => hj (he ▸ List.mem_cons_self i t)
    have hjt : j ∉ t := fun hm => hj (List.mem_cons_of_mem i hm)
    rw [List.foldl_cons, ih _ j hjt, get?_set_other _ i j _ hji]

theorem foldl_set_get_mem {a : Type} (l : List Nat) (f : Nat → a) :
    forall (init : List a) (j : Nat), j ∈ l → j < init.length →
    (l.foldl (fun acc i => acc.set i (f i)) init).get? j = some (f j) := by
  induction l with
  | nil => intro init j hmem _; cases hmem
  | cons i t ih =>
    intro init j hmem hlt
    rw [List.foldl_cons]
    by_cases hjt : j ∈ t
    · exact ih _ j hjt (by rw [List.length_set]; exact hlt)
    · have hij : i = j := by
        rcases List.mem_cons.mp hmem with h | h
        · exact h.symm
        · exact absurd h hjt
      rw [foldl_set_get_not_mem t f _ j hjt, hij, get?_set_self _ j _ hlt]

/-- C9: the output sequence of the bounded-pool collection loop has at
each index i the processed result of the i-th input row, for every
completion order of the worker tasks: the pre-allocated index-addressed
array makes the collected output independent of completion timing and
equal to the in-order map of the per-row outcome. -/
theorem C9_output_order (rows : List Rec) (worker : Nat → Except String Rec)
    (today : String) (perm : List Nat)
    (hperm : perm.Perm (List.range rows.length)) :
    process_csv_collect rows worker today perm
      = (List.range rows.length).map (fun i => some (slotValue rows worker today i)) := by
  apply List.ext_get?
  intro j
  by_cases hj : j < rows.length
  · have hmem : j ∈ perm := hperm.mem_iff.mpr (List.mem_range.mpr hj)
    unfold process_csv_collect
    rw [foldl_set_get_mem perm _ _ j hmem (by rw [List.length_replicate]; exact hj)]
    rw [List.get?_eq_getElem?, List.getElem?_map, List.getElem?_range hj]
    rfl
  · have hnotmem : j ∉ perm := fun hm => hj (List.mem_range.mp (hperm.mem_iff.mp hm))
    unfold process_csv_collect
    rw [foldl_set_get_not_mem _ _ _ j hnotmem]
    have h1 : (List.replicate rows.length (none : Option Rec)).get? j = none := by
      rw [List.get?_eq_getElem?]
      apply List.getElem?_eq_none
      rw [List.length_replicate]
      omega
    have h2 : ((List.range rows.length).map
        (fun i => some (slotValue rows worker today i))).get? j = none := by
      rw [List.get?_eq_getElem?]
      apply List.getElem?_eq_none
      rw [List.length_map, List.length_range]
      omega
    rw [h1, h2]

/-- Witness instantiating C9_output_order: three rows collected in the
completion order 2, 0, 1 (later-indexed tasks finishing first). -/
theorem C9_output_order_witness :
    process_csv_collect rowsC9 workerC9 "2024-01-01" [2, 0, 1]
      = (List.range rowsC9.length).map
          (fun i => some (slotValue rowsC9 workerC9 "2024-01-01" i)) :=
  C9_output_order rowsC9 workerC9 "2024-01-01" [2, 0, 1] (by decide)

/-- C10: the paginated download stops on the first non-200 status or
success=false envelope at any reachable loop state and returns the records
accumulated so far as though they were the complete table; it returns None
only for a raised transport exception, in which case the driver run aborts
reporting failure after that single request; every request it ever issues
has an offset below the 100000-record limit; and consequently the data fed
to the duplicate filter can be a strict subset of the remote table
(concretely: a two-record table whose second page request fails delivers
only the first record). -/
theorem C10_download_behaviour :
    (∀ (resp : Nat → PageResp) (fuel offset : Nat) (acc : List Rec),
        0 < fuel → offset < dlLimit → resp offset = PageResp.badStatus →
        dl_go resp fuel offset acc = (some acc, [offset]))
    ∧ (∀ (resp : Nat → PageResp) (fuel offset : Nat) (acc : List Rec),
        0 < fuel → offset < dlLimit → resp offset = PageResp.badEnvelope →
        dl_go resp fuel offset acc = (some acc, [offset]))
    ∧ (∀ (resp : Nat → PageResp) (fuel offset : Nat) (acc : List Rec),
        0 < fuel → offset < dlLimit → resp offset = PageResp.raise →
        dl_go resp fuel offset acc = (none, [offset]))
    ∧ (∀ (remote : List Rec) (df : DF) (resp : UpsertResp),
        append_core (fun _ => PageResp.raise) remote df resp
          = (false, remote, [Call.search 0]))
    ∧ (∀ (resp : Nat → PageResp) (fuel offset : Nat) (acc : List Rec),
        ∀ o ∈ (dl_go resp fuel offset acc).2, o < dlLimit)
    ∧ (dl_go respC10 100 0 [] = (some [recC10a], [0, 1000])
        ∧ recC10a ∈ tableC10 ∧ [recC10a] ≠ tableC10) := by
  refine ⟨?_, ?_, ?_, ?_, ?_, ?_, ?_, ?_⟩
  · intro resp fuel offset acc hf hoff hresp
    cases fuel with
    | zero => exact absurd hf (Nat.lt_irrefl 0)
    | succ n =>
      simp only [dl_go]
      rw [if_pos hoff, hresp]
  · intro resp fuel offset acc hf hoff hresp
    cases fuel with
    | zero => exact absurd hf (Nat.lt_irrefl 0)
    | succ n =>
      simp only [dl_go]
      rw [if_pos hoff, hresp]
  · intro resp fuel offset acc hf hoff hresp
    cases fuel with
    | zero => exact absurd hf (Nat.lt_irrefl 0)
    | succ n =>
      simp only [dl_go]
      rw [if_pos hoff, hresp]
  · intro remote df resp
    rfl
  · intro resp fuel
    induction fuel with
    | zero =>
      intro offset acc o ho
      simp [dl_go] at ho
    | succ n ih =>
      intro offset acc o ho
      simp only [dl_go] at ho
      by_cases hoff : offset < dlLimit
      · rw [if_pos hoff] at ho
        cases hresp : resp offset with
        | raise =>
          rw [hresp] at ho
          simp at ho
          omega
        | badStatus =>
          rw [hresp] at ho
          simp at ho
          omega
        | badEnvelope =>
          rw [hresp] at ho
          simp at ho
          omega
        | ok records total =>
          rw [hresp] at ho
          dsimp only at ho
          by_cases hrec : records.isEmpty
          · rw [if_pos hrec] at ho
            simp at ho
            omega
          · rw [if_neg hrec] at ho
            by_cases htot : total ≤ (acc ++ records).length
            · rw [if_pos htot] at ho
              simp at ho
              omega
            · rw [if_neg htot] at ho
              simp only [List.mem_cons] at ho
              rcases ho with ho | ho
              · omega
              · exact ih (offset + dlBatch) (acc ++ records) o ho
      · rw [if_neg hoff] at ho
        simp at ho
  · decide
  · decide
  · decide

/-- Witness instantiating the quantified parts of C10_download_behaviour
at fuel 1, offset 0 and an empty accumulator. -/
theorem C10_download_witness :
    dl_go (fun _ => PageResp.badStatus) 1 0 [] = (some [], [0])
    ∧ dl_go (fun _ => PageResp.badEnvelope) 1 0 [] = (some [], [0])
    ∧ dl_go (fun _ => PageResp.raise) 1 0 [] = (none, [0]) :=
  ⟨C10_download_behaviour.1 (fun _ => PageResp.badStatus) 1 0 [] (by decide) (by decide) rfl,
   C10_download_behaviour.2.1 (fun _ => PageResp.badEnvelope) 1 0 [] (by decide) (by decide) rfl,
   C10_download_behaviour.2.2.1 (fun _ => PageResp.raise) 1 0 [] (by decide) (by decide) rfl⟩

end CkanTS
